import Mathlib

/-!
# Verification of `pkg/metrics/metrics.go`

A shallow embedding of the adapter's metrics package: the instrument
definitions built by `NewMetrics`, the registration loop over the collector
map, and the background task started by `ServiceMetrics.Run`.

The package is a thin client of the Prometheus client library, `fmt`,
`net/http` and `klog`.  The parts of those libraries the package calls are
modelled here next to the code that calls them and are marked as library
models in their doc comments; the registry is abstract (`Library`) where
a property has to hold for every behaviour of `Register`, and concrete
(`Registry`) where the property is about the library's own behaviour.
Floating-point values are modelled by the exact rationals their decimal
literals denote.
-/

namespace metrics

/-! ## Library model: descriptors, instruments, collectors -/

/-- The instrument types of the client library used by the package. -/
inductive MetricType where
  | Gauge
  | Counter
  | Histogram
  deriving DecidableEq, Repr

/-- Library model of `prometheus.Opts` (`GaugeOpts` and `CounterOpts` are this
type); the fields the package never sets keep Go's zero value. -/
structure Opts where
  Namespace : String := ""
  Subsystem : String := ""
  Name : String := ""
  Help : String := ""
  deriving DecidableEq, Repr

/-- Library model of `prometheus.HistogramOpts`. -/
structure HistogramOpts where
  Namespace : String := ""
  Subsystem : String := ""
  Name : String := ""
  Help : String := ""
  Buckets : List ℚ := []
  deriving DecidableEq

/-- Library model of `prometheus.BuildFQName`: the non-empty components joined
by an underscore, and the empty string when the name is empty. -/
def BuildFQName (ns subsystem name : String) : String :=
  if name = "" then ""
  else if ns ≠ "" ∧ subsystem ≠ "" then ns ++ "_" ++ subsystem ++ "_" ++ name
  else if ns ≠ "" then ns ++ "_" ++ name
  else if subsystem ≠ "" then subsystem ++ "_" ++ name
  else name

/-- Library model of `prometheus.Desc`: the fully-qualified name, the help
text and the ordered variable label names. -/
structure Desc where
  fqName : String
  help : String
  variableLabels : List String
  deriving DecidableEq, Repr

/-- Library model of `prometheus.NewDesc` without constant labels. -/
def NewDesc (fqName help : String) (variableLabels : List String) : Desc :=
  { fqName := fqName, help := help, variableLabels := variableLabels }

/-- An unlabelled gauge: one descriptor and one current value. -/
structure Gauge where
  desc : Desc
  value : ℚ
  deriving DecidableEq

/-- A gauge vector: one descriptor and one child value per label-value
assignment created so far. -/
structure GaugeVec where
  desc : Desc
  children : List (List String × ℚ)
  deriving DecidableEq

/-- A counter vector: one descriptor and one child value per label-value
assignment created so far. -/
structure CounterVec where
  desc : Desc
  children : List (List String × ℚ)
  deriving DecidableEq

/-- A histogram vector: one descriptor, the explicit bucket upper bounds and,
per label-value assignment created so far, the observations recorded. -/
structure HistogramVec where
  desc : Desc
  buckets : List ℚ
  children : List (List String × List ℚ)
  deriving DecidableEq

/-- Library model of `prometheus.NewGauge`: the value starts at zero. -/
def NewGauge (opts : Opts) : Gauge :=
  { desc := NewDesc (BuildFQName opts.Namespace opts.Subsystem opts.Name) opts.Help [],
    value := 0 }

/-- Library model of `prometheus.NewGaugeVec`: no child exists yet. -/
def NewGaugeVec (opts : Opts) (labelNames : List String) : GaugeVec :=
  { desc := NewDesc (BuildFQName opts.Namespace opts.Subsystem opts.Name) opts.Help labelNames,
    children := [] }

/-- Library model of `prometheus.NewCounterVec`: no child exists yet. -/
def NewCounterVec (opts : Opts) (labelNames : List String) : CounterVec :=
  { desc := NewDesc (BuildFQName opts.Namespace opts.Subsystem opts.Name) opts.Help labelNames,
    children := [] }

/-- Library model of `prometheus.NewHistogramVec`: no child exists yet. -/
def NewHistogramVec (opts : HistogramOpts) (labelNames : List String) : HistogramVec :=
  { desc := NewDesc (BuildFQName opts.Namespace opts.Subsystem opts.Name) opts.Help labelNames,
    buckets := opts.Buckets,
    children := [] }

/-- The current value of one rendered time series. -/
inductive MetricValue where
  | gauge (v : ℚ)
  | counter (v : ℚ)
  | histogram (observations : List ℚ)
  deriving DecidableEq

/-- One sample as a collector hands it to the registry: the family name, the
label values and the value. -/
structure Metric where
  fqName : String
  labelValues : List String
  value : MetricValue
  deriving DecidableEq

/-- The runtime collector returned by `prometheus.NewGoCollector`: the
library decides which series it reports, so they are a parameter here. -/
structure GoCollector where
  metrics : List Metric
  deriving DecidableEq

/-- The values of the `prometheus.Collector` interface that occur in the
package. -/
inductive Collector where
  | goCollector (g : GoCollector)
  | gauge (g : Gauge)
  | gaugeVec (v : GaugeVec)
  | counterVec (v : CounterVec)
  | histogramVec (v : HistogramVec)
  deriving DecidableEq

/-- Library model of `Collector.Describe`, reduced to the fully-qualified
names of the descriptors a collector announces. -/
def Collector.descNames : Collector → List String
  | .goCollector g => g.metrics.map Metric.fqName
  | .gauge g => [g.desc.fqName]
  | .gaugeVec v => [v.desc.fqName]
  | .counterVec v => [v.desc.fqName]
  | .histogramVec v => [v.desc.fqName]

/-- Library model of `Collector.Collect`: an unlabelled gauge always reports
its one value, a vector reports one sample per existing child. -/
def Collector.Collect : Collector → List Metric
  | .goCollector g => g.metrics
  | .gauge g => [{ fqName := g.desc.fqName, labelValues := [], value := .gauge g.value }]
  | .gaugeVec v =>
      v.children.map fun c => { fqName := v.desc.fqName, labelValues := c.1, value := .gauge c.2 }
  | .counterVec v =>
      v.children.map fun c => { fqName := v.desc.fqName, labelValues := c.1, value := .counter c.2 }
  | .histogramVec v =>
      v.children.map fun c =>
        { fqName := v.desc.fqName, labelValues := c.1, value := .histogram c.2 }

/-! ## The package -/

/-- The constant `MetricsNamespace`. -/
def MetricsNamespace : String := "adapter"

/-- The struct `ServiceMetrics`; `σ` is the state of the registry the
`Registry` field points to. -/
structure ServiceMetrics (σ : Type) where
  PrometheusUp : Gauge
  RegistryMetrics : GaugeVec
  Lookups : CounterVec
  Errors : CounterVec
  OutgoingLatency : HistogramVec
  OutgoingRequests : CounterVec
  Rules : GaugeVec
  Registry : σ

/-- The struct literal `ret` at the start of `NewMetrics`, with `registry`
the value of `prometheus.NewRegistry()`. -/
def NewMetrics.ret {σ : Type} (registry : σ) : ServiceMetrics σ :=
  { PrometheusUp := NewGauge {
      Namespace := MetricsNamespace,
      Name := "prometheus_up",
      Help := "1 when adapter is able to reach prometheus, 0 otherwise" },
    RegistryMetrics := NewGaugeVec {
      Namespace := MetricsNamespace,
      Name := "registry_metrics",
      Help := "number of metrics entries in cache registry" } ["registry"],
    Lookups := NewCounterVec {
      Namespace := MetricsNamespace,
      Name := "lookups_total",
      Help := "number of metric lookups" } ["method"],
    Errors := NewCounterVec {
      Namespace := MetricsNamespace,
      Name := "errors_total",
      Help := "number of errors served" } ["type"],
    Rules := NewGaugeVec {
      Namespace := MetricsNamespace,
      Name := "roles",
      Help := "number of configured rules" } ["type"],
    OutgoingLatency := NewHistogramVec {
      Namespace := MetricsNamespace,
      Name := "outgoing_prometheus_request_latency_seconds",
      Help := "Prometheus client query latency in seconds.  Broken down by target prometheus server and endpoint",
      Buckets := [0.0005, 0.001, 0.002, 0.005, 0.01, 0.02, 0.05, 0.1, 0.2, 0.5, 1, 2, 5, 10] }
      ["server", "endpoint"],
    OutgoingRequests := NewCounterVec {
      Namespace := MetricsNamespace,
      Name := "outgoing_prometheus_requests_total",
      Help := "Prometheus client query requests.  Broken down by target prometheus server and status code" }
      ["server", "endpoint", "status"],
    Registry := registry }

/-- The map literal ranged over in `NewMetrics`, as its list of entries. -/
def NewMetrics.collectors {σ : Type} (ret : ServiceMetrics σ) (goCollector : GoCollector) :
    List (String × Collector) :=
  [ ("Go collector", .goCollector goCollector),
    ("Prometheus Up", .gauge ret.PrometheusUp),
    ("Registry Metrics", .gaugeVec ret.RegistryMetrics),
    ("Lookups", .counterVec ret.Lookups),
    ("Errors", .counterVec ret.Errors),
    ("Rules", .gaugeVec ret.Rules),
    ("Outgoing Requests", .counterVec ret.OutgoingRequests),
    ("Outgoing Latency", .histogramVec ret.OutgoingLatency) ]

/-! ## Library model: `fmt` -/

/-- The double-quote character. -/
def dquote : Char := Char.ofNat 34

/-- The backslash character. -/
def backslash : Char := Char.ofNat 92

/-- The digit table `lowerhex` of `strconv`. -/
def lowerhex (n : Nat) : Char :=
  "0123456789abcdef".data.getD (n % 16) '0'

/-- Library model of `strconv.IsPrint`: the rule for runes up to U+00FF is
the library's own, the Unicode tables above that are the parameter
`isPrintTable`. -/
def IsPrint (isPrintTable : Char → Bool) (r : Char) : Bool :=
  if r.toNat ≤ 0xFF then
    if 0x20 ≤ r.toNat ∧ r.toNat < 0x7F then true
    else if 0xA1 ≤ r.toNat then r.toNat ≠ 0xAD
    else false
  else isPrintTable r

/-- Library model of `strconv.appendEscapedRune` for the double-quoted form. -/
def appendEscapedRune (isPrintTable : Char → Bool) (r : Char) : List Char :=
  if r = dquote ∨ r = backslash then [backslash, r]
  else if IsPrint isPrintTable r then [r]
  else if r.toNat = 7 then [backslash, 'a']
  else if r.toNat = 8 then [backslash, 'b']
  else if r.toNat = 12 then [backslash, 'f']
  else if r.toNat = 10 then [backslash, 'n']
  else if r.toNat = 13 then [backslash, 'r']
  else if r.toNat = 9 then [backslash, 't']
  else if r.toNat = 11 then [backslash, 'v']
  else if r.toNat < 0x20 ∨ r.toNat = 0x7F then
    [backslash, 'x', lowerhex (r.toNat / 16), lowerhex r.toNat]
  else if r.toNat < 0x10000 then
    backslash :: 'u' :: [12, 8, 4, 0].map fun s => lowerhex (r.toNat >>> s)
  else
    backslash :: 'U' :: [28, 24, 20, 16, 12, 8, 4, 0].map fun s => lowerhex (r.toNat >>> s)

/-- Library model of `strconv.Quote`, which is what the verb `%q` prints for
a string, on strings that are valid UTF-8 (every Lean string is). -/
def Quote (isPrintTable : Char → Bool) (s : String) : String :=
  ⟨dquote :: (s.data.flatMap (appendEscapedRune isPrintTable) ++ [dquote])⟩

/-- The error built by `fmt.Errorf("during registration of %q: %v",
collectorName, err)`; an error value is modelled by its message. -/
def Errorf (isPrintTable : Char → Bool) (collectorName err : String) : String :=
  "during registration of " ++ Quote isPrintTable collectorName ++ ": " ++ err

/-- The byte `'0' + d` written for one decimal digit. -/
def digitByte (d : Nat) : Char := Char.ofNat (48 + d)

/-- The digit loop of `fmt`'s `fmtInteger` for an unsigned value in base 10:
the digits are written from the last one backwards in front of `buf`. -/
def fmtInteger (u : Nat) (buf : List Char) : List Char :=
  if 10 ≤ u then fmtInteger (u / 10) (digitByte (u - (u / 10) * 10) :: buf)
  else digitByte u :: buf
termination_by u
decreasing_by omega

/-- The address built by `fmt.Sprintf(":%d", port)`. -/
def Sprintf (port : Nat) : String := ⟨':' :: fmtInteger port []⟩

/-! ## `NewMetrics` -/

/-- What the package takes from its libraries: the fresh registry returned by
`prometheus.NewRegistry`, the effect of `Register` on a registry state
(the new state, or the message of the error returned) and the Unicode tables
of `strconv`. -/
structure Library (σ : Type) where
  NewRegistry : σ
  Register : σ → Collector → Except String σ
  isPrintTable : Char → Bool

/-- One executed `ret.Registry.Register(collector)`: the map key, the
collector passed and the error returned, if any. -/
structure RegisterCall where
  collectorName : String
  collector : Collector
  err : Option String
  deriving DecidableEq

/-- The `for ... range` loop of `NewMetrics` over the entries in the order
the map yields them: the registry state reached or the error returned, and
the `Register` calls executed. -/
def NewMetrics.loop {σ : Type} (lib : Library σ) :
    σ → List (String × Collector) → Except String σ × List RegisterCall
  | registry, [] => (.ok registry, [])
  | registry, (collectorName, collector) :: rest =>
    match lib.Register registry collector with
    | .error err =>
      (.error (Errorf lib.isPrintTable collectorName err),
        [{ collectorName := collectorName, collector := collector, err := some err }])
    | .ok registry =>
      let out := NewMetrics.loop lib registry rest
      (out.1, { collectorName := collectorName, collector := collector, err := none } :: out.2)

/-- The two results of `NewMetrics` together with the `Register` calls it
executed. -/
structure NewMetrics.Result (σ : Type) where
  handle : Option (ServiceMetrics σ)
  err : Option String
  calls : List RegisterCall

/-- The function `NewMetrics`.  `goCollector` is the value of
`prometheus.NewGoCollector()`, and `range` is the order in which Go's
`range` yields the entries of the collector map, which the language leaves
unspecified: it visits every entry once. -/
def NewMetrics {σ : Type} (lib : Library σ) (goCollector : GoCollector)
    (range : List (String × Collector) → List (String × Collector)) : NewMetrics.Result σ :=
  let ret := NewMetrics.ret lib.NewRegistry
  match NewMetrics.loop lib ret.Registry (range (NewMetrics.collectors ret goCollector)) with
  | (.error err, calls) => { handle := none, err := some err, calls := calls }
  | (.ok registry, calls) =>
    { handle := some { ret with Registry := registry }, err := none, calls := calls }

/-- The state reached from `registry` when the collectors `cs` are registered
one after the other, if every call succeeds. -/
def registerAll {σ : Type} (lib : Library σ) : σ → List Collector → Option σ
  | registry, [] => some registry
  | registry, c :: cs =>
    match lib.Register registry c with
    | .error _ => none
    | .ok registry => registerAll lib registry cs

/-! ## Library model: the registry -/

/-- A registry: the collectors registered so far. -/
structure Registry where
  collectors : List Collector
  deriving DecidableEq

/-- The fully-qualified names registered so far. -/
def Registry.names (r : Registry) : List String :=
  r.collectors.flatMap Collector.descNames

/-- Library model of `Registry.Register`, reduced to its collision check on
fully-qualified names: a collector is rejected exactly when one of its
descriptors carries a name that an already registered collector announced. -/
def Registry.Register (r : Registry) (c : Collector) : Except String Registry :=
  if c.descNames.any (fun n => decide (n ∈ r.names)) then
    .error "duplicate metrics collector registration attempted"
  else .ok { collectors := r.collectors ++ [c] }

/-- One gathered metric family: its name and its samples. -/
structure MetricFamily where
  name : String
  metrics : List Metric
  deriving DecidableEq

/-- Library model of `Registry.Gather`: every registered collector is
collected, and a family exists for every name that at least one collected
sample carries.  (The library also sorts the families by name.) -/
def Registry.Gather (r : Registry) : List MetricFamily :=
  let collected := r.collectors.flatMap Collector.Collect
  (collected.map Metric.fqName).dedup.map fun n =>
    { name := n, metrics := collected.filter fun m => decide (m.fqName = n) }

/-- The library with the registry model above. -/
def prometheus (isPrintTable : Char → Bool) : Library Registry :=
  { NewRegistry := { collectors := [] },
    Register := Registry.Register,
    isPrintTable := isPrintTable }

/-! ## `ServiceMetrics.Run` -/

/-- The handler `promhttp.HandlerFor(registry, promhttp.HandlerOpts{})`: it
renders the registry it was built for. -/
structure Handler (σ : Type) where
  registry : σ

/-- Library model of `http.ServeMux`: the registered routes. -/
structure ServeMux (σ : Type) where
  routes : List (String × Handler σ)

/-- Library model of `http.NewServeMux`. -/
def NewServeMux {σ : Type} : ServeMux σ := { routes := [] }

/-- Library model of `ServeMux.Handle`. -/
def ServeMux.Handle {σ : Type} (mux : ServeMux σ) (pattern : String) (h : Handler σ) :
    ServeMux σ :=
  { routes := mux.routes ++ [(pattern, h)] }

/-- The effects of the background task that are visible to the process. -/
inductive Event (σ : Type) where
  | ListenAndServe (addr : String) (mux : ServeMux σ)
  | Fatal (err : String)

/-- The body of the goroutine started by `Run`, as the sequence of its
effects.  `listenAndServe` is the environment's answer to
`http.ListenAndServe`: the message of the error it returns, or `none` when it
keeps serving and never returns.  `klog.Fatal` ends the process, so nothing
follows it. -/
def ServiceMetrics.Run {σ : Type} (m : ServiceMetrics σ) (port : Nat)
    (listenAndServe : String → ServeMux σ → Option String) : List (Event σ) :=
  let mux : ServeMux σ := NewServeMux
  let mux := mux.Handle "/metrics" { registry := m.Registry }
  match listenAndServe (Sprintf port) mux with
  | none => [.ListenAndServe (Sprintf port) mux]
  | some err => [.ListenAndServe (Sprintf port) mux, .Fatal err]

/-! ## Vocabulary of the statements -/

/-- The seven instruments of a handle in the order `NewMetrics` builds them:
the fully-qualified name, the instrument type given by the Go type of the
field, and the ordered label names. -/
def ServiceMetrics.instruments {σ : Type} (m : ServiceMetrics σ) :
    List (String × MetricType × List String) :=
  [ (m.PrometheusUp.desc.fqName, .Gauge, m.PrometheusUp.desc.variableLabels),
    (m.RegistryMetrics.desc.fqName, .Gauge, m.RegistryMetrics.desc.variableLabels),
    (m.Lookups.desc.fqName, .Counter, m.Lookups.desc.variableLabels),
    (m.Errors.desc.fqName, .Counter, m.Errors.desc.variableLabels),
    (m.Rules.desc.fqName, .Gauge, m.Rules.desc.variableLabels),
    (m.OutgoingLatency.desc.fqName, .Histogram, m.OutgoingLatency.desc.variableLabels),
    (m.OutgoingRequests.desc.fqName, .Counter, m.OutgoingRequests.desc.variableLabels) ]

/-- The rows of the instrument table of the specification: name without the
namespace, type, label names. -/
def schemaTable : List (String × MetricType × List String) :=
  [ ("prometheus_up", .Gauge, []),
    ("registry_metrics", .Gauge, ["registry"]),
    ("lookups_total", .Counter, ["method"]),
    ("errors_total", .Counter, ["type"]),
    ("roles", .Gauge, ["type"]),
    ("outgoing_prometheus_request_latency_seconds", .Histogram, ["server", "endpoint"]),
    ("outgoing_prometheus_requests_total", .Counter, ["server", "endpoint", "status"]) ]

/-- An example runtime collector reporting two series. -/
def exampleGoCollector : GoCollector :=
  { metrics := [ { fqName := "go_goroutines", labelValues := [], value := .gauge 1 },
                 { fqName := "go_threads", labelValues := [], value := .gauge 1 } ] }

/-- A log of `Register` calls agrees with the registry, started in state
`registry`: every call records what `Register` returned in the state the
calls before it produced, and a call that returned an error is the last. -/
def consistent {σ : Type} (lib : Library σ) : σ → List RegisterCall → Prop
  | _, [] => True
  | registry, call :: rest =>
    match lib.Register registry call.collector with
    | .error err => call.err = some err ∧ rest = []
    | .ok registry => call.err = none ∧ consistent lib registry rest

/-- The eight keys of the collector map. -/
def collectorNames : List String :=
  [ "Go collector", "Prometheus Up", "Registry Metrics", "Lookups", "Errors", "Rules",
    "Outgoing Requests", "Outgoing Latency" ]

/-- An example library whose registry counts the collectors it holds and
rejects the third registration. -/
def exampleFailingLibrary : Library Nat :=
  { NewRegistry := 0,
    Register := fun registry _ =>
      if registry = 2 then .error "descriptor rejected" else .ok (registry + 1),
    isPrintTable := fun _ => true }

/-- The number a string of decimal digits denotes. -/
def decimalValue (cs : List Char) : Nat :=
  cs.foldl (fun acc ch => acc * 10 + (ch.toNat - 48)) 0

/-- The multiplexer `Run` builds for a handle. -/
def Run.mux {σ : Type} (m : ServiceMetrics σ) : ServeMux σ :=
  (NewServeMux : ServeMux σ).Handle "/metrics" { registry := m.Registry }

/-- Whether an effect is a call of `http.ListenAndServe`. -/
def Event.isListenAndServe {σ : Type} : Event σ → Bool
  | .ListenAndServe _ _ => true
  | .Fatal _ => false

/-- Two collectors announce no common fully-qualified name. -/
def Collector.disjoint (a b : Collector) : Prop :=
  ∀ n ∈ a.descNames, n ∉ b.descNames

/-- The six instruments of the handle that are label-partitioned vectors, by
fully-qualified name. -/
def ServiceMetrics.vectorNames {σ : Type} (m : ServiceMetrics σ) : List String :=
  [ m.RegistryMetrics.desc.fqName, m.Lookups.desc.fqName, m.Errors.desc.fqName,
    m.Rules.desc.fqName, m.OutgoingLatency.desc.fqName, m.OutgoingRequests.desc.fqName ]

/-- The record of a `Register` call that returned no error. -/
def RegisterCall.ok (entry : String × Collector) : RegisterCall :=
  { collectorName := entry.1, collector := entry.2, err := none }

/-- The eight collectors of a handle: the runtime collector and the seven
instrument fields. -/
def ServiceMetrics.collectorList {σ : Type} (m : ServiceMetrics σ)
    (goCollector : GoCollector) : List Collector :=
  [ .goCollector goCollector, .gauge m.PrometheusUp, .gaugeVec m.RegistryMetrics,
    .counterVec m.Lookups, .counterVec m.Errors, .gaugeVec m.Rules,
    .counterVec m.OutgoingRequests, .histogramVec m.OutgoingLatency ]

/-- The sample an untouched `PrometheusUp` gauge reports. -/
def untouchedPrometheusUp : Metric :=
  { fqName := "adapter_prometheus_up", labelValues := [], value := .gauge 0 }

/-! ## Shared lemmas -/

/-- A handle returned by `NewMetrics` is the struct literal `ret` with some
registry state in its `Registry` field. -/
theorem handle_eq_ret {σ : Type} (lib : Library σ) (goCollector : GoCollector)
    (range : List (String × Collector) → List (String × Collector)) (h : ServiceMetrics σ)
    (hh : (NewMetrics lib goCollector range).handle = some h) :
    ∃ registry, h = { NewMetrics.ret lib.NewRegistry with Registry := registry } := by
  unfold NewMetrics at hh
  simp only at hh
  split at hh
  · simp at hh
  · rename_i registry calls _
    exact ⟨registry, by simpa using hh.symm⟩

/-- When every `Register` call of the loop succeeds, the loop ends in the
state reached by registering all entries in order and has called `Register`
once per entry. -/
theorem loop_of_registerAll {σ : Type} (lib : Library σ) (l : List (String × Collector)) :
    ∀ (r r1 : σ), registerAll lib r (l.map Prod.snd) = some r1 →
      NewMetrics.loop lib r l = (.ok r1, l.map RegisterCall.ok) := by
  induction l with
  | nil =>
    intro r r1 h
    simp only [List.map_nil, registerAll, Option.some.injEq] at h
    simp [NewMetrics.loop, h]
  | cons e rest ih =>
    intro r r1 h
    obtain ⟨n, c⟩ := e
    simp only [List.map_cons, registerAll] at h
    cases hr : lib.Register r c with
    | error err => simp [hr] at h
    | ok r2 =>
      simp only [hr] at h
      simp [NewMetrics.loop, hr, ih r2 r1 h, RegisterCall.ok]

/-- When the entries `pre` all register and the next entry is rejected with
`err`, the loop stops there: it returns the error built from that entry's key
and `err`, and the rejected call is the last one it made. -/
theorem loop_of_first_failure {σ : Type} (lib : Library σ) (pre : List (String × Collector))
    (n : String) (c : Collector) (post : List (String × Collector)) (err : String) :
    ∀ (r r1 : σ), registerAll lib r (pre.map Prod.snd) = some r1 →
      lib.Register r1 c = .error err →
      NewMetrics.loop lib r (pre ++ (n, c) :: post) =
        (.error (Errorf lib.isPrintTable n err),
          pre.map RegisterCall.ok ++ [{ collectorName := n, collector := c, err := some err }]) := by
  induction pre with
  | nil =>
    intro r r1 h hc
    simp only [List.map_nil, registerAll, Option.some.injEq] at h
    subst h
    simp [NewMetrics.loop, hc]
  | cons e rest ih =>
    intro r r1 h hc
    obtain ⟨n0, c0⟩ := e
    simp only [List.map_cons, registerAll] at h
    cases hr : lib.Register r c0 with
    | error err0 => simp [hr] at h
    | ok r2 =>
      simp only [hr] at h
      simp [NewMetrics.loop, hr, ih r2 r1 h hc, RegisterCall.ok]

/-- Every run of the loop is of one of the two forms above. -/
theorem loop_cases {σ : Type} (lib : Library σ) (l : List (String × Collector)) :
    ∀ (r : σ),
      (∃ r1, registerAll lib r (l.map Prod.snd) = some r1) ∨
      (∃ pre n c post r1 err, l = pre ++ (n, c) :: post ∧
        registerAll lib r (pre.map Prod.snd) = some r1 ∧ lib.Register r1 c = .error err) := by
  induction l with
  | nil => intro r; exact Or.inl ⟨r, rfl⟩
  | cons e rest ih =>
    intro r
    obtain ⟨n, c⟩ := e
    cases hr : lib.Register r c with
    | error err => exact Or.inr ⟨[], n, c, rest, r, err, rfl, rfl, hr⟩
    | ok r2 =>
      rcases ih r2 with ⟨r1, h1⟩ | ⟨pre, n1, c1, post, r1, err, hl, h1, h2⟩
      · exact Or.inl ⟨r1, by simp [registerAll, hr, h1]⟩
      · refine Or.inr ⟨(n, c) :: pre, n1, c1, post, r1, err, by simp [hl], ?_, h2⟩
        simp [registerAll, hr, h1]

/-- `NewMetrics` when every `Register` call succeeds. -/
theorem NewMetrics_of_registerAll {σ : Type} (lib : Library σ) (goCollector : GoCollector)
    (range : List (String × Collector) → List (String × Collector)) (r1 : σ)
    (h : registerAll lib lib.NewRegistry
      ((range (NewMetrics.collectors (NewMetrics.ret lib.NewRegistry) goCollector)).map
        Prod.snd) = some r1) :
    NewMetrics lib goCollector range =
      { handle := some { NewMetrics.ret lib.NewRegistry with Registry := r1 },
        err := none,
        calls := (range (NewMetrics.collectors (NewMetrics.ret lib.NewRegistry)
          goCollector)).map RegisterCall.ok } := by
  have hl := loop_of_registerAll lib _ lib.NewRegistry r1 h
  have hr : (NewMetrics.ret lib.NewRegistry).Registry = lib.NewRegistry := rfl
  unfold NewMetrics
  simp only [hr, hl]

/-- `NewMetrics` when some `Register` call fails. -/
theorem NewMetrics_of_first_failure {σ : Type} (lib : Library σ) (goCollector : GoCollector)
    (range : List (String × Collector) → List (String × Collector))
    (pre : List (String × Collector)) (n : String) (c : Collector)
    (post : List (String × Collector)) (r1 : σ) (err : String)
    (hl : range (NewMetrics.collectors (NewMetrics.ret lib.NewRegistry) goCollector) =
      pre ++ (n, c) :: post)
    (h : registerAll lib lib.NewRegistry (pre.map Prod.snd) = some r1)
    (hc : lib.Register r1 c = .error err) :
    NewMetrics lib goCollector range =
      { handle := none,
        err := some (Errorf lib.isPrintTable n err),
        calls := pre.map RegisterCall.ok ++
          [{ collectorName := n, collector := c, err := some err }] } := by
  have h2 := loop_of_first_failure lib pre n c post err lib.NewRegistry r1 h hc
  have hr : (NewMetrics.ret lib.NewRegistry).Registry = lib.NewRegistry := rfl
  unfold NewMetrics
  simp only [hr, hl, h2]

/-- The calls `NewMetrics` reports are those of its loop. -/
theorem NewMetrics_calls {σ : Type} (lib : Library σ) (goCollector : GoCollector)
    (range : List (String × Collector) → List (String × Collector)) :
    (NewMetrics lib goCollector range).calls =
      (NewMetrics.loop lib lib.NewRegistry
        (range (NewMetrics.collectors (NewMetrics.ret lib.NewRegistry) goCollector))).2 := by
  have hr : (NewMetrics.ret lib.NewRegistry).Registry = lib.NewRegistry := rfl
  unfold NewMetrics
  simp only [hr]
  split <;> simp [*]

/-- The log of the loop agrees with the registry. -/
theorem loop_consistent {σ : Type} (lib : Library σ) (l : List (String × Collector)) :
    ∀ r : σ, consistent lib r (NewMetrics.loop lib r l).2 := by
  induction l with
  | nil => intro r; simp [NewMetrics.loop, consistent]
  | cons e rest ih =>
    intro r
    obtain ⟨n, c⟩ := e
    cases hr : lib.Register r c with
    | error err => simp [NewMetrics.loop, consistent, hr]
    | ok r2 =>
      have := ih r2
      simp [NewMetrics.loop, consistent, hr, this]

/-- The loop calls `Register` on an initial segment of the entries, in their
order. -/
theorem loop_calls_initial {σ : Type} (lib : Library σ) (l : List (String × Collector)) :
    ∀ r : σ, ((NewMetrics.loop lib r l).2.map fun call =>
      (call.collectorName, call.collector)) <+: l := by
  induction l with
  | nil => intro r; simp [NewMetrics.loop]
  | cons e rest ih =>
    intro r
    obtain ⟨n, c⟩ := e
    cases hr : lib.Register r c with
    | error err =>
      simp only [NewMetrics.loop, hr, List.map_cons, List.map_nil]
      exact ⟨rest, rfl⟩
    | ok r2 =>
      obtain ⟨t, ht⟩ := ih r2
      simp only [NewMetrics.loop, hr, List.map_cons]
      exact ⟨t, by simp [ht]⟩

/-- In the log of the loop nothing follows a call that returned an error. -/
theorem loop_calls_last {σ : Type} (lib : Library σ) (l : List (String × Collector)) :
    ∀ (r : σ) (pre : List RegisterCall) (call : RegisterCall) (post : List RegisterCall),
      (NewMetrics.loop lib r l).2 = pre ++ call :: post → call.err ≠ none → post = [] := by
  induction l with
  | nil => intro r pre call post h; simp [NewMetrics.loop] at h
  | cons e rest ih =>
    intro r pre call post h hne
    obtain ⟨n, c⟩ := e
    cases hr : lib.Register r c with
    | error err =>
      simp only [NewMetrics.loop, hr] at h
      cases pre with
      | nil => simp at h; exact h.2
      | cons x pre1 => simp at h
    | ok r2 =>
      simp only [NewMetrics.loop, hr] at h
      cases pre with
      | nil =>
        simp only [List.nil_append, List.cons.injEq] at h
        rw [← h.1] at hne
        simp at hne
      | cons x pre1 =>
        simp only [List.cons_append, List.cons.injEq] at h
        exact ih r2 pre1 call post h.2 hne

/-! ## The registration loop -/

/-- C2: `NewMetrics` is all-or-nothing for every behaviour of `Register` and
every iteration order: it returns a handle and no error, or no handle and an
error; it returns the error exactly when one of the `Register` calls it made
returned an error; its calls run through the entries in order and record what
`Register` returned; and no call follows a call that returned an error. -/
theorem NewMetrics_all_or_nothing {σ : Type} (lib : Library σ) (goCollector : GoCollector)
    (range : List (String × Collector) → List (String × Collector)) :
    (((∃ h, (NewMetrics lib goCollector range).handle = some h) ∧
        (NewMetrics lib goCollector range).err = none) ∨
      ((NewMetrics lib goCollector range).handle = none ∧
        ∃ msg, (NewMetrics lib goCollector range).err = some msg)) ∧
    ((∃ msg, (NewMetrics lib goCollector range).err = some msg) ↔
      ∃ call ∈ (NewMetrics lib goCollector range).calls, call.err ≠ none) ∧
    consistent lib lib.NewRegistry (NewMetrics lib goCollector range).calls ∧
    ((NewMetrics lib goCollector range).calls.map fun call =>
      (call.collectorName, call.collector)) <+:
        range (NewMetrics.collectors (NewMetrics.ret lib.NewRegistry) goCollector) ∧
    ∀ pre call post, (NewMetrics lib goCollector range).calls = pre ++ call :: post →
      call.err ≠ none → post = [] := by
  refine ⟨?_, ?_, ?_, ?_, ?_⟩
  · rcases loop_cases lib (range (NewMetrics.collectors (NewMetrics.ret lib.NewRegistry)
      goCollector)) lib.NewRegistry with ⟨r1, h1⟩ | ⟨pre, n, c, post, r1, err, hl, h1, h2⟩
    · rw [NewMetrics_of_registerAll lib goCollector range r1 h1]
      exact Or.inl ⟨⟨_, rfl⟩, rfl⟩
    · rw [NewMetrics_of_first_failure lib goCollector range pre n c post r1 err hl h1 h2]
      exact Or.inr ⟨rfl, _, rfl⟩
  · rcases loop_cases lib (range (NewMetrics.collectors (NewMetrics.ret lib.NewRegistry)
      goCollector)) lib.NewRegistry with ⟨r1, h1⟩ | ⟨pre, n, c, post, r1, err, hl, h1, h2⟩
    · rw [NewMetrics_of_registerAll lib goCollector range r1 h1]
      simp only [reduceCtorEq, exists_false, false_iff, not_exists, not_and, not_not]
      intro call hcall
      obtain ⟨e, _, rfl⟩ := List.mem_map.1 hcall
      rfl
    · rw [NewMetrics_of_first_failure lib goCollector range pre n c post r1 err hl h1 h2]
      refine ⟨fun _ => ⟨{ collectorName := n, collector := c, err := some err }, by simp, by simp⟩,
        fun _ => ⟨_, rfl⟩⟩
  · rw [NewMetrics_calls]
    exact loop_consistent lib _ _
  · rw [NewMetrics_calls]
    exact loop_calls_initial lib _ _
  · rw [NewMetrics_calls]
    exact loop_calls_last lib _ _

/-- The verb `%q` prints each of the eight map keys unchanged between two
double quotes. -/
theorem Quote_collectorNames (isPrintTable : Char → Bool) :
    ∀ n ∈ collectorNames, Quote isPrintTable n = ⟨dquote :: (n.data ++ [dquote])⟩ := by
  intro n hn
  simp only [collectorNames, List.mem_cons, List.mem_singleton, List.not_mem_nil,
    or_false] at hn
  rcases hn with rfl | rfl | rfl | rfl | rfl | rfl | rfl | rfl <;> rfl

/-- The keys of the entries of the collector map. -/
theorem collectors_keys {σ : Type} (ret : ServiceMetrics σ) (goCollector : GoCollector) :
    (NewMetrics.collectors ret goCollector).map Prod.fst = collectorNames := rfl

/-- C3: when `Register` rejects the collector keyed `n` with error `err` and
all entries before it in the iteration order were registered, `NewMetrics`
returns no handle and the error whose message is `during registration of `,
the key `n` between double quotes as `%q` prints it, `: ` and the text of
`err`; `n` is one of the eight keys and is the key the map gives to the
collector that was passed to `Register`. -/
theorem NewMetrics_error_message {σ : Type} (lib : Library σ) (goCollector : GoCollector)
    (range : List (String × Collector) → List (String × Collector))
    (pre : List (String × Collector)) (n : String) (c : Collector)
    (post : List (String × Collector)) (r1 : σ) (err : String)
    (hperm : (range (NewMetrics.collectors (NewMetrics.ret lib.NewRegistry) goCollector)).Perm
      (NewMetrics.collectors (NewMetrics.ret lib.NewRegistry) goCollector))
    (hl : range (NewMetrics.collectors (NewMetrics.ret lib.NewRegistry) goCollector) =
      pre ++ (n, c) :: post)
    (h : registerAll lib lib.NewRegistry (pre.map Prod.snd) = some r1)
    (hc : lib.Register r1 c = .error err) :
    (NewMetrics lib goCollector range).handle = none ∧
    (NewMetrics lib goCollector range).err =
      some ("during registration of " ++ Quote lib.isPrintTable n ++ ": " ++ err) ∧
    Quote lib.isPrintTable n = ⟨dquote :: (n.data ++ [dquote])⟩ ∧
    n ∈ collectorNames ∧
    (n, c) ∈ NewMetrics.collectors (NewMetrics.ret lib.NewRegistry) goCollector ∧
    (NewMetrics lib goCollector range).calls.getLast? =
      some { collectorName := n, collector := c, err := some err } := by
  have hmem : (n, c) ∈ NewMetrics.collectors (NewMetrics.ret lib.NewRegistry) goCollector := by
    apply hperm.subset
    rw [hl]
    simp
  have hn : n ∈ collectorNames := by
    rw [← collectors_keys (NewMetrics.ret lib.NewRegistry) goCollector]
    exact List.mem_map_of_mem Prod.fst hmem
  rw [NewMetrics_of_first_failure lib goCollector range pre n c post r1 err hl h hc]
  exact ⟨rfl, rfl, Quote_collectorNames lib.isPrintTable n hn, hn, hmem, by simp⟩

/-- C3, at a registry that rejects the third registration, with the map order
as written: the error names the third key. -/
theorem NewMetrics_error_message_witness :
    (NewMetrics exampleFailingLibrary exampleGoCollector id).err =
      some ("during registration of " ++ Quote (fun _ => true) "Registry Metrics" ++
        ": " ++ "descriptor rejected") :=
  (NewMetrics_error_message exampleFailingLibrary exampleGoCollector id
    [ ("Go collector", .goCollector exampleGoCollector),
      ("Prometheus Up", .gauge (NewMetrics.ret 0).PrometheusUp) ]
    "Registry Metrics" (.gaugeVec (NewMetrics.ret 0).RegistryMetrics)
    [ ("Lookups", .counterVec (NewMetrics.ret 0).Lookups),
      ("Errors", .counterVec (NewMetrics.ret 0).Errors),
      ("Rules", .gaugeVec (NewMetrics.ret 0).Rules),
      ("Outgoing Requests", .counterVec (NewMetrics.ret 0).OutgoingRequests),
      ("Outgoing Latency", .histogramVec (NewMetrics.ret 0).OutgoingLatency) ]
    2 "descriptor rejected" (List.Perm.refl _) rfl rfl rfl).2.1

/-- The collectors of the map entries are the eight collectors of the
handle. -/
theorem collectors_snd {σ : Type} (ret : ServiceMetrics σ) (goCollector : GoCollector) :
    (NewMetrics.collectors ret goCollector).map Prod.snd = ret.collectorList goCollector := rfl

/-- The eight collectors of the struct literal are pairwise different. -/
theorem collectorList_nodup {σ : Type} (registry : σ) (goCollector : GoCollector) :
    ((NewMetrics.ret registry).collectorList goCollector).Nodup := by
  have hu : (NewMetrics.ret registry).collectorList goCollector =
      (NewMetrics.ret ()).collectorList goCollector := rfl
  rw [hu]
  simp only [ServiceMetrics.collectorList, List.nodup_cons, List.mem_cons, List.not_mem_nil,
    or_false, not_or]
  refine ⟨by simp, ?_⟩
  decide

/-- C4: on success every instrument is registered exactly once, whatever the
iteration order: the `Register` calls made are eight, all succeeded, their
collectors are the runtime collector and the seven instrument fields of the
handle, each once, and the registry in the handle's `Registry` field is the
one those eight calls produced from the fresh registry. -/
theorem NewMetrics_registers_each_once {σ : Type} (lib : Library σ)
    (goCollector : GoCollector)
    (range : List (String × Collector) → List (String × Collector)) (h : ServiceMetrics σ)
    (hperm : (range (NewMetrics.collectors (NewMetrics.ret lib.NewRegistry) goCollector)).Perm
      (NewMetrics.collectors (NewMetrics.ret lib.NewRegistry) goCollector))
    (hh : (NewMetrics lib goCollector range).handle = some h) :
    ((NewMetrics lib goCollector range).calls.map RegisterCall.collector).Perm
      (h.collectorList goCollector) ∧
    ((NewMetrics lib goCollector range).calls.map RegisterCall.collector).Nodup ∧
    (NewMetrics lib goCollector range).calls.length = 8 ∧
    (∀ call ∈ (NewMetrics lib goCollector range).calls, call.err = none) ∧
    registerAll lib lib.NewRegistry
      ((NewMetrics lib goCollector range).calls.map RegisterCall.collector) =
        some h.Registry := by
  rcases loop_cases lib (range (NewMetrics.collectors (NewMetrics.ret lib.NewRegistry)
    goCollector)) lib.NewRegistry with ⟨r1, h1⟩ | ⟨pre, n, c, post, r1, err, hl, h1, h2⟩
  · rw [NewMetrics_of_registerAll lib goCollector range r1 h1] at hh ⊢
    simp only [Option.some.injEq] at hh
    subst hh
    have hmap : ((range (NewMetrics.collectors (NewMetrics.ret lib.NewRegistry)
        goCollector)).map RegisterCall.ok).map RegisterCall.collector =
        (range (NewMetrics.collectors (NewMetrics.ret lib.NewRegistry) goCollector)).map
          Prod.snd := by
      simp [RegisterCall.ok, Function.comp_def]
    have hp : ((range (NewMetrics.collectors (NewMetrics.ret lib.NewRegistry)
        goCollector)).map Prod.snd).Perm
        ((NewMetrics.ret lib.NewRegistry).collectorList goCollector) := by
      rw [← collectors_snd]
      exact hperm.map Prod.snd
    simp only [hmap]
    refine ⟨hp, ?_, ?_, ?_, h1⟩
    · exact hp.nodup_iff.2 (collectorList_nodup lib.NewRegistry goCollector)
    · rw [List.length_map, hperm.length_eq]
      rfl
    · intro call hcall
      obtain ⟨e, _, rfl⟩ := List.mem_map.1 hcall
      rfl
  · rw [NewMetrics_of_first_failure lib goCollector range pre n c post r1 err hl h1 h2] at hh
    simp at hh

/-- C4, at the library's registry model with the map order reversed. -/
theorem NewMetrics_registers_each_once_witness :
    ∃ h : ServiceMetrics Registry,
      (NewMetrics (prometheus fun _ => true) exampleGoCollector List.reverse).handle = some h ∧
      (NewMetrics (prometheus fun _ => true) exampleGoCollector List.reverse).calls.length = 8 :=
  ⟨_, rfl, (NewMetrics_registers_each_once (prometheus fun _ => true) exampleGoCollector
    List.reverse _ (List.reverse_perm _) rfl).2.2.1⟩

/-- The byte written for a digit below ten is that decimal digit. -/
theorem digitByte_spec (d : Nat) (hd : d < 10) :
    (digitByte d).isDigit = true ∧ (digitByte d).toNat - 48 = d ∧
      (d ≠ 0 → digitByte d ≠ '0') := by
  interval_cases d <;> decide

/-- The digit loop on a value below ten writes its one digit. -/
theorem fmtInteger_lt (u : Nat) (buf : List Char) (h : u < 10) :
    fmtInteger u buf = digitByte u :: buf := by
  rw [fmtInteger]
  simp [Nat.not_le.2 h]

/-- One round of the digit loop on a value of at least ten. -/
theorem fmtInteger_ge (u : Nat) (buf : List Char) (h : 10 ≤ u) :
    fmtInteger u buf = fmtInteger (u / 10) (digitByte (u % 10) :: buf) := by
  rw [fmtInteger]
  have : u - u / 10 * 10 = u % 10 := by omega
  simp [h, this]

/-- The digit loop leaves the bytes already in the buffer behind its own. -/
theorem fmtInteger_append (u : Nat) : ∀ buf, fmtInteger u buf = fmtInteger u [] ++ buf := by
  induction u using Nat.strong_induction_on with
  | _ u ih =>
    intro buf
    by_cases h : 10 ≤ u
    · rw [fmtInteger_ge u buf h, fmtInteger_ge u [] h, ih (u / 10) (by omega),
        ih (u / 10) (by omega) [digitByte (u % 10)]]
      simp
    · rw [fmtInteger_lt u buf (by omega), fmtInteger_lt u [] (by omega)]
      simp

/-- The digits of a value of at least ten: those of its tenth, then its last
digit. -/
theorem fmtInteger_step (u : Nat) (h : 10 ≤ u) :
    fmtInteger u [] = fmtInteger (u / 10) [] ++ [digitByte (u % 10)] := by
  rw [fmtInteger_ge u [] h, fmtInteger_append]

/-- The digit loop writes decimal digits only. -/
theorem fmtInteger_digits (u : Nat) : ∀ ch ∈ fmtInteger u [], ch.isDigit = true := by
  induction u using Nat.strong_induction_on with
  | _ u ih =>
    intro ch hch
    by_cases h : 10 ≤ u
    · rw [fmtInteger_step u h] at hch
      rcases List.mem_append.1 hch with h1 | h1
      · exact ih (u / 10) (by omega) ch h1
      · rw [List.mem_singleton] at h1
        rw [h1]
        exact (digitByte_spec (u % 10) (by omega)).1
    · rw [fmtInteger_lt u [] (by omega), List.mem_singleton] at hch
      rw [hch]
      exact (digitByte_spec u (by omega)).1

/-- The digits written denote the value formatted. -/
theorem fmtInteger_value (u : Nat) : decimalValue (fmtInteger u []) = u := by
  induction u using Nat.strong_induction_on with
  | _ u ih =>
    by_cases h : 10 ≤ u
    · have h1 := ih (u / 10) (by omega)
      unfold decimalValue at h1 ⊢
      rw [fmtInteger_step u h, List.foldl_append, h1]
      simp only [List.foldl_cons, List.foldl_nil]
      rw [(digitByte_spec (u % 10) (by omega)).2.1]
      omega
    · rw [fmtInteger_lt u [] (by omega)]
      simp only [decimalValue, List.foldl_cons, List.foldl_nil]
      rw [(digitByte_spec u (by omega)).2.1]
      omega

/-- The digits of a non-zero value do not start with a zero. -/
theorem fmtInteger_head (u : Nat) (hu : u ≠ 0) :
    ∃ ch rest, fmtInteger u [] = ch :: rest ∧ ch ≠ '0' := by
  induction u using Nat.strong_induction_on with
  | _ u ih =>
    by_cases h : 10 ≤ u
    · obtain ⟨ch, rest, h1, h2⟩ := ih (u / 10) (by omega) (by omega)
      exact ⟨ch, rest ++ [digitByte (u % 10)], by rw [fmtInteger_step u h, h1]; rfl, h2⟩
    · exact ⟨digitByte u, [], fmtInteger_lt u [] (by omega), (digitByte_spec u (by omega)).2.2 hu⟩

/-- A value below `10 ^ (k + 1)` is written with at most `k + 1` digits. -/
theorem fmtInteger_length (k : Nat) :
    ∀ u, u < 10 ^ (k + 1) → (fmtInteger u []).length ≤ k + 1 := by
  induction k with
  | zero => intro u h; rw [fmtInteger_lt u [] (by omega)]; simp
  | succ k ih =>
    intro u h
    by_cases h10 : 10 ≤ u
    · have := ih (u / 10) (by
        rw [Nat.div_lt_iff_lt_mul (by norm_num)]
        rw [pow_succ] at h
        exact h)
      rw [fmtInteger_step u h10]
      simp
      omega
    · rw [fmtInteger_lt u [] (by omega)]; simp

/-! ## The instrument schema -/

/-- C1: the handle built by `NewMetrics` carries exactly seven instruments,
and their fully-qualified names, types and ordered label names are the rows
of the specification's table with the prefix `adapter_`, the fully-qualified
name being the namespace, an underscore and the name. -/
theorem NewMetrics_schema {σ : Type} (lib : Library σ) (goCollector : GoCollector)
    (range : List (String × Collector) → List (String × Collector)) (h : ServiceMetrics σ)
    (hh : (NewMetrics lib goCollector range).handle = some h) :
    h.instruments =
      [ ("adapter_prometheus_up", .Gauge, []),
        ("adapter_registry_metrics", .Gauge, ["registry"]),
        ("adapter_lookups_total", .Counter, ["method"]),
        ("adapter_errors_total", .Counter, ["type"]),
        ("adapter_roles", .Gauge, ["type"]),
        ("adapter_outgoing_prometheus_request_latency_seconds", .Histogram,
          ["server", "endpoint"]),
        ("adapter_outgoing_prometheus_requests_total", .Counter,
          ["server", "endpoint", "status"]) ] ∧
    h.instruments =
      schemaTable.map (fun row => (MetricsNamespace ++ "_" ++ row.1, row.2.1, row.2.2)) ∧
    h.instruments.length = 7 := by
  obtain ⟨registry, rfl⟩ := handle_eq_ret lib goCollector range h hh
  exact ⟨rfl, rfl, rfl⟩

/-- C1, at the library's registry model with the map order as written. -/
theorem NewMetrics_schema_witness :
    ∃ h : ServiceMetrics Registry,
      (NewMetrics (prometheus fun _ => true) exampleGoCollector id).handle = some h ∧
      h.instruments.length = 7 :=
  ⟨_, rfl, (NewMetrics_schema (prometheus fun _ => true) exampleGoCollector id _ rfl).2.2⟩

/-- C5: the bucket upper bounds of the outgoing-latency histogram of a handle
are exactly the fourteen values 1/2000, 1/1000, 1/500, 1/200, 1/100, 1/50,
1/20, 1/10, 1/5, 1/2, 1, 2, 5, 10, in this order. -/
theorem OutgoingLatency_buckets {σ : Type} (lib : Library σ) (goCollector : GoCollector)
    (range : List (String × Collector) → List (String × Collector)) (h : ServiceMetrics σ)
    (hh : (NewMetrics lib goCollector range).handle = some h) :
    h.OutgoingLatency.buckets =
      [1 / 2000, 1 / 1000, 1 / 500, 1 / 200, 1 / 100, 1 / 50, 1 / 20, 1 / 10, 1 / 5, 1 / 2,
        1, 2, 5, 10] ∧
    h.OutgoingLatency.buckets.length = 14 := by
  obtain ⟨registry, rfl⟩ := handle_eq_ret lib goCollector range h hh
  constructor
  · simp only [NewMetrics.ret, NewHistogramVec]
    norm_num
  · rfl

/-- C5, at the library's registry model with the map order as written. -/
theorem OutgoingLatency_buckets_witness :
    ∃ h : ServiceMetrics Registry,
      (NewMetrics (prometheus fun _ => true) exampleGoCollector id).handle = some h ∧
      h.OutgoingLatency.buckets.length = 14 :=
  ⟨_, rfl, (OutgoingLatency_buckets (prometheus fun _ => true) exampleGoCollector id _ rfl).2⟩

/-- C10: the instrument definitions meet the construction preconditions of
the metrics library: the histogram's bucket bounds are strictly increasing,
its label names do not contain the reserved name `le`, and in every
instrument's label list the names are non-empty, pairwise distinct and do not
start with two underscores. -/
theorem ret_construction_preconditions {σ : Type} (registry : σ) :
    List.Chain' (fun a b => a < b) (NewMetrics.ret registry).OutgoingLatency.buckets ∧
    (NewMetrics.ret registry).OutgoingLatency.buckets.length = 14 ∧
    (NewMetrics.ret registry).OutgoingLatency.desc.variableLabels = ["server", "endpoint"] ∧
    "le" ∉ (NewMetrics.ret registry).OutgoingLatency.desc.variableLabels ∧
    ∀ row ∈ (NewMetrics.ret registry).instruments,
      row.2.2.Nodup ∧ ∀ l ∈ row.2.2, l ≠ "" ∧ ¬ "__".data <+: l.data := by
  have hl : (NewMetrics.ret registry).OutgoingLatency.desc.variableLabels =
      ["server", "endpoint"] := rfl
  have hi : (NewMetrics.ret registry).instruments =
      schemaTable.map (fun row => (MetricsNamespace ++ "_" ++ row.1, row.2.1, row.2.2)) := rfl
  refine ⟨?_, rfl, rfl, ?_, ?_⟩
  · simp only [NewMetrics.ret, NewHistogramVec]
    norm_num
  · rw [hl]
    decide
  · rw [hi]
    decide

/-! ## The scrape endpoint -/

/-- C7: a listener failure is fatal.  Whenever `http.ListenAndServe` returns,
with whatever error and on whatever port, the background task calls
`klog.Fatal` with that error as its next and last effect: the task has called
`ListenAndServe` once, it does not call it again, and it does not go on or end
without the fatal exit. -/
theorem Run_listener_failure_fatal {σ : Type} (m : ServiceMetrics σ) (port : Nat)
    (listenAndServe : String → ServeMux σ → Option String) (err : String)
    (h : listenAndServe (Sprintf port) (Run.mux m) = some err) :
    m.Run port listenAndServe =
      [.ListenAndServe (Sprintf port) (Run.mux m), .Fatal err] ∧
    (m.Run port listenAndServe).getLast? = some (.Fatal err) ∧
    ((m.Run port listenAndServe).filter Event.isListenAndServe).length = 1 := by
  have hrun : m.Run port listenAndServe =
      [.ListenAndServe (Sprintf port) (Run.mux m), .Fatal err] := by
    unfold ServiceMetrics.Run
    unfold Run.mux at h
    simp only [h]
    rfl
  rw [hrun]
  exact ⟨rfl, rfl, rfl⟩

/-- C7, at port 8080 taken by another process. -/
theorem Run_listener_failure_fatal_witness :
    (NewMetrics.ret ()).Run 8080 (fun _ _ => some "bind: address already in use") =
      [.ListenAndServe (Sprintf 8080) (Run.mux (NewMetrics.ret ())),
        .Fatal "bind: address already in use"] :=
  (Run_listener_failure_fatal (NewMetrics.ret ()) 8080
    (fun _ _ => some "bind: address already in use") "bind: address already in use" rfl).1

/-- C8: for every port below 65536 the task listens on the address made of a
colon and the decimal digits of the port, without host, sign or leading
zero, and serves a multiplexer whose only route is `/metrics`, handled by
rendering the registry in the handle's `Registry` field. -/
theorem Run_address_and_route {σ : Type} (m : ServiceMetrics σ) (port : Nat)
    (listenAndServe : String → ServeMux σ → Option String) (hport : port < 65536) :
    (m.Run port listenAndServe).head? =
      some (.ListenAndServe (Sprintf port) (Run.mux m)) ∧
    (Sprintf port).data = ':' :: fmtInteger port [] ∧
    (∀ ch ∈ fmtInteger port [], ch.isDigit = true) ∧
    decimalValue (fmtInteger port []) = port ∧
    (port ≠ 0 → ∃ ch rest, fmtInteger port [] = ch :: rest ∧ ch ≠ '0') ∧
    (port = 0 → fmtInteger port [] = ['0']) ∧
    (fmtInteger port []).length ≤ 5 ∧
    (Run.mux m).routes = [("/metrics", { registry := m.Registry })] := by
  refine ⟨?_, rfl, fmtInteger_digits port, fmtInteger_value port, fmtInteger_head port, ?_,
    fmtInteger_length 4 port (by omega), rfl⟩
  · unfold ServiceMetrics.Run
    cases hl : listenAndServe (Sprintf port)
        ((NewServeMux : ServeMux σ).Handle "/metrics" { registry := m.Registry }) <;>
      simp only [hl] <;> rfl
  · intro h0
    rw [h0, fmtInteger_lt 0 [] (by omega)]
    rfl

/-- C8, at port 8080: the address is `:8080`. -/
theorem Run_address_and_route_witness :
    8080 < 65536 ∧ (Sprintf 8080).data = [':', '8', '0', '8', '0'] :=
  ⟨by decide,
    (Run_address_and_route (NewMetrics.ret ()) 8080 (fun _ _ => none) (by decide)).2.1.trans
      (by simp [fmtInteger, digitByte])⟩

/-! ## The fresh registry -/

/-- Registering a collector adds the names it announces. -/
theorem Registry.names_append (r : Registry) (c : Collector) :
    Registry.names { collectors := r.collectors ++ [c] } = r.names ++ c.descNames := by
  simp [Registry.names]

/-- In the library's registry model, collectors that pairwise share no name and
share none with the registry all register, in any order. -/
theorem registerAll_prometheus (isPrintTable : Char → Bool) (cs : List Collector) :
    ∀ r : Registry, cs.Pairwise Collector.disjoint →
      (∀ c ∈ cs, ∀ n ∈ c.descNames, n ∉ r.names) →
      registerAll (prometheus isPrintTable) r cs = some { collectors := r.collectors ++ cs } := by
  induction cs with
  | nil => intro r _ _; simp [registerAll]
  | cons c rest ih =>
    intro r hp hr
    rw [List.pairwise_cons] at hp
    have hc : (prometheus isPrintTable).Register r c =
        .ok { collectors := r.collectors ++ [c] } := by
      have : (c.descNames.any fun n => decide (n ∈ r.names)) = false := by
        rw [List.any_eq_false]
        intro n hn
        simpa using hr c (List.mem_cons_self _ _) n hn
      simp [prometheus, Registry.Register, this]
    have hrest := ih { collectors := r.collectors ++ [c] } hp.2 (by
      intro c1 hc1 n hn
      rw [Registry.names_append, List.mem_append, not_or]
      refine ⟨hr c1 (List.mem_cons_of_mem _ hc1) n hn, ?_⟩
      intro hnc
      exact hp.1 c1 hc1 n hnc hn)
    simp only [registerAll, hc, hrest]
    simp

/-- The eight collectors pairwise share no fully-qualified name when the
runtime collector's names start with `go_`. -/
theorem collectorList_pairwise {σ : Type} (registry : σ) (goCollector : GoCollector)
    (hgo : ∀ m ∈ goCollector.metrics, "go_".data <+: m.fqName.data) :
    ((NewMetrics.ret registry).collectorList goCollector).Pairwise Collector.disjoint := by
  have hu : (NewMetrics.ret registry).collectorList goCollector =
      (NewMetrics.ret ()).collectorList goCollector := rfl
  rw [hu]
  unfold ServiceMetrics.collectorList
  rw [List.pairwise_cons]
  constructor
  · intro b hb n hn hnb
    obtain ⟨m, hm, rfl⟩ := List.mem_map.1 hn
    have hpre := hgo m hm
    have hall : ∀ b ∈ [Collector.gauge (NewMetrics.ret ()).PrometheusUp,
        .gaugeVec (NewMetrics.ret ()).RegistryMetrics,
        .counterVec (NewMetrics.ret ()).Lookups, .counterVec (NewMetrics.ret ()).Errors,
        .gaugeVec (NewMetrics.ret ()).Rules, .counterVec (NewMetrics.ret ()).OutgoingRequests,
        .histogramVec (NewMetrics.ret ()).OutgoingLatency],
        ∀ n ∈ b.descNames, ¬ "go_".data <+: n.data := by decide
    exact hall b hb _ hnb hpre
  · unfold Collector.disjoint
    decide

/-- On the library's registry model every iteration order registers all eight
collectors, and the registry then holds them in that order. -/
theorem registerAll_fresh (isPrintTable : Char → Bool) (goCollector : GoCollector)
    (range : List (String × Collector) → List (String × Collector))
    (hgo : ∀ m ∈ goCollector.metrics, "go_".data <+: m.fqName.data)
    (hperm : (range (NewMetrics.collectors (NewMetrics.ret (prometheus isPrintTable).NewRegistry)
        goCollector)).Perm
      (NewMetrics.collectors (NewMetrics.ret (prometheus isPrintTable).NewRegistry)
        goCollector)) :
    registerAll (prometheus isPrintTable) (prometheus isPrintTable).NewRegistry
      ((range (NewMetrics.collectors (NewMetrics.ret (prometheus isPrintTable).NewRegistry)
        goCollector)).map Prod.snd) =
      some { collectors := (range (NewMetrics.collectors
        (NewMetrics.ret (prometheus isPrintTable).NewRegistry) goCollector)).map Prod.snd } := by
  have hp : ((range (NewMetrics.collectors (NewMetrics.ret (prometheus isPrintTable).NewRegistry)
      goCollector)).map Prod.snd).Perm
      ((NewMetrics.ret (prometheus isPrintTable).NewRegistry).collectorList goCollector) := by
    rw [← collectors_snd]
    exact hperm.map Prod.snd
  have hpw := hp.symm.pairwise (collectorList_pairwise _ goCollector hgo)
    (fun {a b} (hab : Collector.disjoint a b) => fun n hn hna => hab n hna hn)
  have h := registerAll_prometheus isPrintTable _ (prometheus isPrintTable).NewRegistry hpw
    (by intro c _ n _; simp [prometheus, Registry.names])
  rw [h]
  simp [prometheus]

/-- In the library's registry model, while the entries are registered in the
iteration order, each `Register` call finds none of its names registered and
returns no error: it adds its collector to those registered before it. -/
theorem Register_fresh_step (isPrintTable : Char → Bool) (goCollector : GoCollector)
    (range : List (String × Collector) → List (String × Collector))
    (hgo : ∀ m ∈ goCollector.metrics, "go_".data <+: m.fqName.data)
    (hperm : (range (NewMetrics.collectors (NewMetrics.ret (prometheus isPrintTable).NewRegistry)
        goCollector)).Perm
      (NewMetrics.collectors (NewMetrics.ret (prometheus isPrintTable).NewRegistry)
        goCollector))
    (pre : List (String × Collector)) (n : String) (c : Collector)
    (post : List (String × Collector))
    (hl : range (NewMetrics.collectors (NewMetrics.ret (prometheus isPrintTable).NewRegistry)
      goCollector) = pre ++ (n, c) :: post) :
    Registry.Register { collectors := pre.map Prod.snd } c =
      .ok { collectors := pre.map Prod.snd ++ [c] } := by
  have hp : ((range (NewMetrics.collectors (NewMetrics.ret (prometheus isPrintTable).NewRegistry)
      goCollector)).map Prod.snd).Perm
      ((NewMetrics.ret (prometheus isPrintTable).NewRegistry).collectorList goCollector) := by
    rw [← collectors_snd]
    exact hperm.map Prod.snd
  have hpw := hp.symm.pairwise (collectorList_pairwise _ goCollector hgo)
    (fun {a b} (hab : Collector.disjoint a b) => fun n hn hna => hab n hna hn)
  rw [hl, List.map_append, List.map_cons, List.pairwise_append] at hpw
  have hdis : ∀ a ∈ pre.map Prod.snd, Collector.disjoint a c :=
    fun a ha => hpw.2.2 a ha c (List.mem_cons_self _ _)
  have hany : (c.descNames.any fun m =>
      decide (m ∈ Registry.names { collectors := pre.map Prod.snd })) = false := by
    rw [List.any_eq_false]
    intro m hm
    simp only [decide_eq_true_eq, Registry.names, List.mem_flatMap, not_exists, not_and]
    intro a ha hma
    exact hdis a ha m hma hm
  simp [Registry.Register, hany]

/-- In the library's registry model a registry rejects every collector that
announces a name of a collector it already holds. -/
theorem Register_again (r : Registry) (c : Collector) (hc : c ∈ r.collectors)
    (hn : c.descNames ≠ []) :
    Registry.Register r c = .error "duplicate metrics collector registration attempted" := by
  obtain ⟨n, hnc⟩ := List.exists_mem_of_ne_nil _ hn
  have hany : (c.descNames.any fun m => decide (m ∈ r.names)) = true := by
    rw [List.any_eq_true]
    exact ⟨n, hnc, by
      simp only [decide_eq_true_eq, Registry.names, List.mem_flatMap]
      exact ⟨c, hc, hnc⟩⟩
  simp [Registry.Register, hany]

/-- C9: on its own fresh registry `NewMetrics` cannot fail.  The seven
fully-qualified instrument names are pairwise distinct and none starts with
`go_`; so, when the runtime collector's names all start with `go_` and the
registry starts empty and rejects a collector only for a name already
registered, each of the eight `Register` calls, made on the registry holding
the collectors of the entries before it, returns no error, in every iteration
order; `NewMetrics` returns a handle and no error, it has made those eight
calls on the entries in their order with the results the registry gave, and
the registry in the handle holds exactly the eight collectors.  A second
call, with whatever iteration order, succeeds as well, because it starts from
its own new registry: its registry ends up holding its own eight collectors
only, whereas the registry of the first handle rejects every one of its
collectors that announces a name, the seven instruments among them, if it is
registered there again. -/
theorem NewMetrics_fresh_registry_succeeds (isPrintTable : Char → Bool)
    (goCollector : GoCollector)
    (range₁ range₂ : List (String × Collector) → List (String × Collector))
    (hgo : ∀ m ∈ goCollector.metrics, "go_".data <+: m.fqName.data)
    (hperm₁ : (range₁ (NewMetrics.collectors
        (NewMetrics.ret (prometheus isPrintTable).NewRegistry) goCollector)).Perm
      (NewMetrics.collectors (NewMetrics.ret (prometheus isPrintTable).NewRegistry)
        goCollector))
    (hperm₂ : (range₂ (NewMetrics.collectors
        (NewMetrics.ret (prometheus isPrintTable).NewRegistry) goCollector)).Perm
      (NewMetrics.collectors (NewMetrics.ret (prometheus isPrintTable).NewRegistry)
        goCollector)) :
    ((NewMetrics.ret (prometheus isPrintTable).NewRegistry).instruments.map Prod.fst).Nodup ∧
    (∀ n ∈ (NewMetrics.ret (prometheus isPrintTable).NewRegistry).instruments.map Prod.fst,
      ¬ "go_".data <+: n.data) ∧
    ((∃ h, (NewMetrics (prometheus isPrintTable) goCollector range₁).handle = some h) ∧
      (NewMetrics (prometheus isPrintTable) goCollector range₁).err = none ∧
      (NewMetrics (prometheus isPrintTable) goCollector range₁).calls.length = 8 ∧
      ∀ call ∈ (NewMetrics (prometheus isPrintTable) goCollector range₁).calls,
        call.err = none) ∧
    ((∃ h, (NewMetrics (prometheus isPrintTable) goCollector range₂).handle = some h) ∧
      (NewMetrics (prometheus isPrintTable) goCollector range₂).err = none ∧
      (NewMetrics (prometheus isPrintTable) goCollector range₂).calls.length = 8 ∧
      ∀ call ∈ (NewMetrics (prometheus isPrintTable) goCollector range₂).calls,
        call.err = none) ∧
    (∀ pre n c post,
      range₁ (NewMetrics.collectors (NewMetrics.ret (prometheus isPrintTable).NewRegistry)
        goCollector) = pre ++ (n, c) :: post →
      Registry.Register { collectors := pre.map Prod.snd } c =
        .ok { collectors := pre.map Prod.snd ++ [c] }) ∧
    consistent (prometheus isPrintTable) { collectors := [] }
      (NewMetrics (prometheus isPrintTable) goCollector range₁).calls ∧
    ((NewMetrics (prometheus isPrintTable) goCollector range₁).calls.map fun call =>
      (call.collectorName, call.collector)) =
        range₁ (NewMetrics.collectors (NewMetrics.ret (prometheus isPrintTable).NewRegistry)
          goCollector) ∧
    (∃ h₁ h₂,
      (NewMetrics (prometheus isPrintTable) goCollector range₁).handle = some h₁ ∧
      (NewMetrics (prometheus isPrintTable) goCollector range₂).handle = some h₂ ∧
      registerAll (prometheus isPrintTable) { collectors := [] }
        ((NewMetrics (prometheus isPrintTable) goCollector range₁).calls.map
          RegisterCall.collector) = some h₁.Registry ∧
      registerAll (prometheus isPrintTable) { collectors := [] }
        ((NewMetrics (prometheus isPrintTable) goCollector range₂).calls.map
          RegisterCall.collector) = some h₂.Registry ∧
      h₁.Registry.collectors.Perm (h₁.collectorList goCollector) ∧
      h₂.Registry.collectors.Perm (h₂.collectorList goCollector) ∧
      h₁.Registry.collectors.length = 8 ∧
      h₂.Registry.collectors.length = 8 ∧
      ∀ c ∈ h₁.collectorList goCollector, c.descNames ≠ [] →
        Registry.Register h₁.Registry c =
          .error "duplicate metrics collector registration attempted") := by
  have hi : (NewMetrics.ret (prometheus isPrintTable).NewRegistry).instruments =
      schemaTable.map (fun row => (MetricsNamespace ++ "_" ++ row.1, row.2.1, row.2.2)) := rfl
  have hmap : ∀ l : List (String × Collector),
      (l.map RegisterCall.ok).map RegisterCall.collector = l.map Prod.snd := by
    intro l
    simp [RegisterCall.ok, Function.comp_def]
  have hkeys : ∀ l : List (String × Collector),
      ((l.map RegisterCall.ok).map fun call => (call.collectorName, call.collector)) = l := by
    intro l
    simp [RegisterCall.ok, Function.comp_def]
  have hp : ∀ range : List (String × Collector) → List (String × Collector),
      (range (NewMetrics.collectors (NewMetrics.ret (prometheus isPrintTable).NewRegistry)
        goCollector)).Perm
      (NewMetrics.collectors (NewMetrics.ret (prometheus isPrintTable).NewRegistry)
        goCollector) →
      ((range (NewMetrics.collectors (NewMetrics.ret (prometheus isPrintTable).NewRegistry)
        goCollector)).map Prod.snd).Perm
      ((NewMetrics.ret (prometheus isPrintTable).NewRegistry).collectorList goCollector) := by
    intro range hperm
    rw [← collectors_snd]
    exact hperm.map Prod.snd
  have e₁ := NewMetrics_of_registerAll (prometheus isPrintTable) goCollector range₁ _
    (registerAll_fresh isPrintTable goCollector range₁ hgo hperm₁)
  have e₂ := NewMetrics_of_registerAll (prometheus isPrintTable) goCollector range₂ _
    (registerAll_fresh isPrintTable goCollector range₂ hgo hperm₂)
  have hc₁ := NewMetrics_calls (prometheus isPrintTable) goCollector range₁
  have hcons := loop_consistent (prometheus isPrintTable)
    (range₁ (NewMetrics.collectors (NewMetrics.ret (prometheus isPrintTable).NewRegistry)
      goCollector)) (prometheus isPrintTable).NewRegistry
  rw [← hc₁] at hcons
  refine ⟨?_, ?_, ?_, ?_, ?_, hcons, ?_, ?_⟩
  · rw [hi]
    decide
  · rw [hi]
    decide
  · rw [e₁]
    refine ⟨⟨_, rfl⟩, rfl, ?_, ?_⟩
    · rw [List.length_map, hperm₁.length_eq]
      rfl
    · intro call hcall
      obtain ⟨e, _, rfl⟩ := List.mem_map.1 hcall
      rfl
  · rw [e₂]
    refine ⟨⟨_, rfl⟩, rfl, ?_, ?_⟩
    · rw [List.length_map, hperm₂.length_eq]
      rfl
    · intro call hcall
      obtain ⟨e, _, rfl⟩ := List.mem_map.1 hcall
      rfl
  · intro pre n c post hl
    exact Register_fresh_step isPrintTable goCollector range₁ hgo hperm₁ pre n c post hl
  · rw [e₁]
    exact hkeys _
  · rw [e₁, e₂]
    refine ⟨_, _, rfl, rfl, ?_, ?_, hp range₁ hperm₁, hp range₂ hperm₂, ?_, ?_, ?_⟩
    · simp only [hmap]
      exact registerAll_fresh isPrintTable goCollector range₁ hgo hperm₁
    · simp only [hmap]
      exact registerAll_fresh isPrintTable goCollector range₂ hgo hperm₂
    · show ((range₁ _).map Prod.snd).length = 8
      rw [List.length_map, hperm₁.length_eq]
      rfl
    · show ((range₂ _).map Prod.snd).length = 8
      rw [List.length_map, hperm₂.length_eq]
      rfl
    · intro c hc hn
      exact Register_again _ c ((hp range₁ hperm₁).mem_iff.2 hc) hn

/-- C9, with the example runtime collector, first in the map order as
written and then in the reverse order. -/
theorem NewMetrics_fresh_registry_succeeds_witness :
    (∃ h, (NewMetrics (prometheus fun _ => true) exampleGoCollector id).handle = some h) ∧
    (∃ h, (NewMetrics (prometheus fun _ => true) exampleGoCollector List.reverse).handle =
      some h) ∧
    consistent (prometheus fun _ => true) { collectors := [] }
      (NewMetrics (prometheus fun _ => true) exampleGoCollector id).calls :=
  ⟨(NewMetrics_fresh_registry_succeeds (fun _ => true) exampleGoCollector id List.reverse
      (by decide) (List.Perm.refl _) (List.reverse_perm _)).2.2.1.1,
    (NewMetrics_fresh_registry_succeeds (fun _ => true) exampleGoCollector id List.reverse
      (by decide) (List.Perm.refl _) (List.reverse_perm _)).2.2.2.1.1,
    (NewMetrics_fresh_registry_succeeds (fun _ => true) exampleGoCollector id List.reverse
      (by decide) (List.Perm.refl _) (List.reverse_perm _)).2.2.2.2.2.1⟩

/-! ## Gathering an untouched registry -/

/-- C6 fails as stated: with the example runtime collector and the map order
as written `NewMetrics` succeeds, no instrument is touched, and gathering the
registry of the handle does not give a sample for each of the seven
instrument families. -/
theorem gather_untouched_counterexample :
    ∃ h : ServiceMetrics Registry,
      (NewMetrics (prometheus fun _ => true) exampleGoCollector id).handle = some h ∧
      ¬ ∀ n ∈ h.instruments.map Prod.fst,
        ∃ f ∈ h.Registry.Gather, f.name = n ∧ f.metrics ≠ [] :=
  ⟨_, rfl, by decide⟩

/-- What the eight collectors of the struct literal report when collected:
the runtime collector's series and the one sample of `PrometheusUp`. -/
theorem collectorList_collect {σ : Type} (registry : σ) (goCollector : GoCollector) :
    ((NewMetrics.ret registry).collectorList goCollector).flatMap Collector.Collect =
      goCollector.metrics ++ [untouchedPrometheusUp] := by
  simp [ServiceMetrics.collectorList, Collector.Collect, NewMetrics.ret, NewGauge, NewGaugeVec,
    NewCounterVec, NewHistogramVec, untouchedPrometheusUp, NewDesc]
  decide

/-- A family is gathered exactly when some collected sample carries its name,
and it holds the collected samples of that name. -/
theorem Registry.mem_Gather (r : Registry) (f : MetricFamily) :
    f ∈ r.Gather ↔ (∃ m ∈ r.collectors.flatMap Collector.Collect, m.fqName = f.name) ∧
      f.metrics = (r.collectors.flatMap Collector.Collect).filter
        fun m => decide (m.fqName = f.name) := by
  unfold Registry.Gather
  simp only [List.mem_map, List.mem_dedup]
  constructor
  · rintro ⟨n, ⟨m, hm, rfl⟩, rfl⟩
    exact ⟨⟨m, hm, rfl⟩, rfl⟩
  · rintro ⟨⟨m, hm, hn⟩, hf⟩
    refine ⟨f.name, ⟨m, hm, hn⟩, ?_⟩
    cases f
    simp only at hf
    simp [hf]

/-- C6, amended: gathering the registry of a successful `NewMetrics` before any
instrument is touched yields for `adapter_prometheus_up`, the one instrument
that is not a vector, a family with exactly one sample of value 0, and yields
no family for any of the six label-partitioned vector instruments, which have
no label assignment yet. -/
theorem gather_untouched (isPrintTable : Char → Bool) (goCollector : GoCollector)
    (range : List (String × Collector) → List (String × Collector))
    (h : ServiceMetrics Registry)
    (hgo : ∀ m ∈ goCollector.metrics, "go_".data <+: m.fqName.data)
    (hperm : (range (NewMetrics.collectors
        (NewMetrics.ret (prometheus isPrintTable).NewRegistry) goCollector)).Perm
      (NewMetrics.collectors (NewMetrics.ret (prometheus isPrintTable).NewRegistry)
        goCollector))
    (hh : (NewMetrics (prometheus isPrintTable) goCollector range).handle = some h) :
    (∃ f ∈ h.Registry.Gather, f.name = h.PrometheusUp.desc.fqName ∧
      f.metrics = [untouchedPrometheusUp]) ∧
    h.PrometheusUp.desc.fqName = "adapter_prometheus_up" ∧
    (∀ n ∈ h.vectorNames, ∀ f ∈ h.Registry.Gather, f.name ≠ n) ∧
    h.vectorNames =
      [ "adapter_registry_metrics", "adapter_lookups_total", "adapter_errors_total",
        "adapter_roles", "adapter_outgoing_prometheus_request_latency_seconds",
        "adapter_outgoing_prometheus_requests_total" ] := by
  rw [NewMetrics_of_registerAll (prometheus isPrintTable) goCollector range _
    (registerAll_fresh isPrintTable goCollector range hgo hperm)] at hh
  simp only [Option.some.injEq] at hh
  subst hh
  have hp : ((range (NewMetrics.collectors (NewMetrics.ret (prometheus isPrintTable).NewRegistry)
      goCollector)).map Prod.snd).Perm
      ((NewMetrics.ret (prometheus isPrintTable).NewRegistry).collectorList goCollector) := by
    rw [← collectors_snd]
    exact hperm.map Prod.snd
  have hc := hp.flatMap_right Collector.Collect
  rw [collectorList_collect] at hc
  have hgo_ne : ∀ m ∈ goCollector.metrics, ∀ n ∈ ["adapter_prometheus_up",
      "adapter_registry_metrics", "adapter_lookups_total", "adapter_errors_total",
      "adapter_roles", "adapter_outgoing_prometheus_request_latency_seconds",
      "adapter_outgoing_prometheus_requests_total"], m.fqName ≠ n := by
    intro m hm n hn heq
    have hpre := hgo m hm
    rw [heq] at hpre
    have hall : ∀ n ∈ ["adapter_prometheus_up",
      "adapter_registry_metrics", "adapter_lookups_total", "adapter_errors_total",
      "adapter_roles", "adapter_outgoing_prometheus_request_latency_seconds",
      "adapter_outgoing_prometheus_requests_total"], ¬ "go_".data <+: n.data := by decide
    exact hall n hn hpre
  refine ⟨?_, rfl, ?_, rfl⟩
  · refine ⟨{ name := "adapter_prometheus_up",
              metrics := (((range (NewMetrics.collectors
                (NewMetrics.ret (prometheus isPrintTable).NewRegistry) goCollector)).map
                  Prod.snd).flatMap Collector.Collect).filter
                    fun m => decide (m.fqName = "adapter_prometheus_up") }, ?_, rfl, ?_⟩
    · rw [Registry.mem_Gather]
      refine ⟨⟨untouchedPrometheusUp, ?_, rfl⟩, rfl⟩
      exact hc.mem_iff.2 (by simp)
    · have hf := hc.filter (fun m => decide (m.fqName = "adapter_prometheus_up"))
      rw [List.filter_append] at hf
      have hnil : goCollector.metrics.filter
          (fun m => decide (m.fqName = "adapter_prometheus_up")) = [] := by
        rw [List.filter_eq_nil_iff]
        intro m hm
        simpa using hgo_ne m hm _ (by simp)
      rw [hnil] at hf
      exact List.perm_singleton.1 hf
  · intro n hn f hf hfn
    rw [Registry.mem_Gather] at hf
    obtain ⟨⟨m, hm, hmn⟩, _⟩ := hf
    have hm2 := hc.mem_iff.1 hm
    have hn6 : n ∈ ["adapter_registry_metrics", "adapter_lookups_total",
        "adapter_errors_total", "adapter_roles",
        "adapter_outgoing_prometheus_request_latency_seconds",
        "adapter_outgoing_prometheus_requests_total"] := hn
    rcases List.mem_append.1 hm2 with hg | hu
    · exact hgo_ne m hg n (List.mem_cons_of_mem _ hn6) (hmn.trans hfn)
    · rw [List.mem_singleton] at hu
      rw [hu] at hmn
      have : ∀ n ∈ ["adapter_registry_metrics", "adapter_lookups_total",
        "adapter_errors_total", "adapter_roles",
        "adapter_outgoing_prometheus_request_latency_seconds",
        "adapter_outgoing_prometheus_requests_total"], untouchedPrometheusUp.fqName ≠ n := by
        decide
      exact this n hn6 (hmn.trans hfn)

/-- C6, amended, with the example runtime collector and the map order
reversed. -/
theorem gather_untouched_witness :
    ∃ h : ServiceMetrics Registry,
      (NewMetrics (prometheus fun _ => true) exampleGoCollector List.reverse).handle = some h ∧
      ∀ n ∈ h.vectorNames, ∀ f ∈ h.Registry.Gather, f.name ≠ n :=
  ⟨_, rfl, (gather_untouched (fun _ => true) exampleGoCollector List.reverse _ (by decide)
    (List.reverse_perm _) rfl).2.2.1⟩

end metrics
